import Mathlib

/-!
Verification of the pnt_rust GNSS core: RINEX navigation parsing
(`gnss.rs`) and broadcast-orbit propagation (`satellite.rs`).

Modelling conventions:
* `f64` values are modelled as exact rationals (`ℚ`); the arithmetic the
  claims speak about is exact at the magnitudes involved.
* The external float literal parser (Rust `str::parse::<f64>`) and the
  transcendental functions (`f64::sin`, `f64::cos`, `f64::atan2`,
  `f64::sqrt`) are parameters of the embedding: the repository's logic is
  stated for every choice of these externals.
* Panics (integer division by zero, out-of-bounds indexing, failed
  `unwrap`) are modelled by `Option`/`Except` failure values.
* Civil timestamps are modelled by their whole-microsecond offset from the
  GPS epoch 1980-01-06T00:00:00 UTC (the quantity chrono's subtraction in
  `calculate_gps_time` produces); `std::time::Duration` values by their
  nanosecond count.
-/

/-- Truncation of a rational toward zero: the rounding used by Rust's `%`
remainder on `f64` (and by `as u64` casts).  Computable, unlike `⌊·⌋`. -/
def ratTrunc (q : ℚ) : ℤ := Int.tdiv q.num q.den

/-- Rust `a % b` on `f64`: remainder with the sign of the dividend,
`a - b * trunc (a / b)`. -/
def rustRem (a b : ℚ) : ℚ := a - b * (ratTrunc (a / b) : ℚ)

/-- Half-week rollover from satellite.rs line 85:
`tk = (tk + half_week) % (2.0 * half_week) - half_week` with
`half_week = 302400.0`. -/
def tkRoll (d : ℚ) : ℚ := rustRem (d + 302400) 604800 - 302400

/-- Elapsed time from the ephemeris reference epoch, satellite.rs lines
83–85: `tk = t - toe` followed by the half-week rollover. -/
def tkOf (t toe : ℚ) : ℚ := tkRoll (t - toe)

/-- Rust `f64::abs`, as the computable rational absolute value. -/
def ratAbs (q : ℚ) : ℚ := if q < 0 then -q else q

/-- Rust `as u64` cast of an `f64`: saturating truncation toward zero
(negative values clamp to 0, large values to `2^64 - 1`). -/
def satU64 (q : ℚ) : ℕ := if q < 0 then 0 else min (2 ^ 64 - 1) (ratTrunc q).toNat

/-- WGS-84 Earth rotation rate `OMEGA_E_DOT = 7.2921151467e-5` (gnss.rs). -/
def OMEGA_E_DOT : ℚ := 72921151467 / 10 ^ 15

/-- Earth gravitational constant `MU_EARTH = 398600.5e9` (gnss.rs). -/
def MU_EARTH : ℚ := 398600500000000

/-- Civil epoch of a navigation record: year, month, day, hour, minute,
second as parsed integers (gnss.rs `NavRecord.epoch`). -/
abbrev Epoch := ℤ × ℤ × ℤ × ℤ × ℤ × ℤ

/-- gnss.rs `calculate_gps_time`, with the timestamp given as its
microsecond offset `t` from the GPS epoch:
`((t as f64) / 1e6 + leap_seconds) * 1000.0` with 18 leap seconds. -/
def calculate_gps_time (t : ℤ) : ℚ := ((t : ℚ) / 1000000 + 18) * 1000

/-- gnss.rs `NavRecord`: one parsed broadcast navigation record. -/
structure NavRecord where
  sat_id : ℕ
  epoch : Epoch
  gps_millis : ℚ
  sv_clock_bias : ℚ
  sv_clock_drift : ℚ
  sv_clock_drift_rate : ℚ
  iode : ℚ
  crs : ℚ
  delta_n : ℚ
  m0 : ℚ
  cuc : ℚ
  eccentricity : ℚ
  cus : ℚ
  sqrt_a : ℚ
  toe : ℚ
  cic : ℚ
  omega0 : ℚ
  cis : ℚ
  i0 : ℚ
  crc : ℚ
  omega : ℚ
  omega_dot : ℚ
  idot : ℚ
  codes_on_l2_channel : ℚ
  gps_week : ℚ
  l2_p_data_flag : ℚ
  sv_accuracy : ℚ
  sv_health : ℚ
  tgd : ℚ
  iodc : ℚ
  transmission_time : ℚ
  fit_interval : ℚ
deriving DecidableEq

/-- Rust `NavRecord::default()`: every field zero. -/
def NavRecord.mkDefault : NavRecord :=
  ⟨0, (0, 0, 0, 0, 0, 0),
   0, 0, 0, 0, 0, 0, 0, 0, 0, 0, 0, 0, 0, 0, 0,
   0, 0, 0, 0, 0, 0, 0, 0, 0, 0, 0, 0, 0, 0, 0⟩

instance : Inhabited NavRecord := ⟨NavRecord.mkDefault⟩

/-- Rust `char::is_whitespace` restricted to the ASCII whitespace that can
occur in RINEX input. -/
def isWs (c : Char) : Bool := c == ' ' || c == '\t' || c == '\n' || c == '\r'

/-- Rust `str::trim`: drop whitespace from both ends. -/
def trimChars (l : List Char) : List Char :=
  ((l.dropWhile isWs).reverse.dropWhile isWs).reverse

/-- Rust `str::replace('D', "E")`: the Fortran exponent marker swap. -/
def replaceDE (l : List Char) : List Char :=
  l.map (fun c => if c == 'D' then 'E' else c)

/-- Accumulating worker for `splitWs`. -/
def splitWsGo : List Char → List Char → List (List Char)
  | [], acc => if acc.isEmpty then [] else [acc.reverse]
  | c :: cs, acc =>
    if isWs c then
      if acc.isEmpty then splitWsGo cs [] else acc.reverse :: splitWsGo cs []
    else splitWsGo cs (c :: acc)

/-- Rust `str::split_whitespace`: maximal runs of non-whitespace. -/
def splitWs (l : List Char) : List (List Char) := splitWsGo l []

/-- Worker for `chunksOf`, structurally recursive on a fuel bound that
dominates the list length (so the zero-fuel case is unreachable). -/
def chunksOfGo (k : ℕ) : ℕ → List Char → List (List Char)
  | _, [] => []
  | 0, _ :: _ => []
  | fuel + 1, c :: cs => (c :: cs).take k :: chunksOfGo k fuel (cs.drop (k - 1))

/-- Rust slice `chunks(k)` for `k ≥ 1`: consecutive `k`-element chunks,
the last possibly short. -/
def chunksOf (k : ℕ) (l : List Char) : List (List Char) := chunksOfGo k l.length l

/-- Character digit check for the decimal integer grammar. -/
def isDigitCh (c : Char) : Bool := '0' ≤ c && c ≤ '9'

/-- Numeric value of a decimal digit character. -/
def digitVal (c : Char) : ℕ := c.toNat - '0'.toNat

/-- Value of a digit string read in base 10. -/
def natOfDigits (l : List Char) : ℕ := l.foldl (fun a c => a * 10 + digitVal c) 0

/-- Rust `str::parse::<u8>().unwrap_or(0)`: optional leading `+`, then one
or more digits, value at most 255; anything else (including overflow)
yields 0. -/
def parseU8or0 (l : List Char) : ℕ :=
  let l' := match l with
    | '+' :: r => r
    | _ => l
  if l'.length ≠ 0 ∧ l'.all isDigitCh = true ∧ natOfDigits l' ≤ 255 then
    natOfDigits l'
  else 0

/-- Rust `str::parse::<i32>().unwrap_or(0)`: optional sign, digits, value
within the `i32` range; anything else yields 0. -/
def parseI32or0 (l : List Char) : ℤ :=
  let sgn : ℤ := match l with
    | '-' :: _ => -1
    | _ => 1
  let l' := match l with
    | '+' :: r => r
    | '-' :: r => r
    | _ => l
  if l'.length ≠ 0 ∧ l'.all isDigitCh = true ∧
      -(2 ^ 31) ≤ sgn * natOfDigits l' ∧ sgn * natOfDigits l' ≤ 2 ^ 31 - 1 then
    sgn * natOfDigits l'
  else 0

/-- gnss.rs `RinexNav::parse_float`:
`s.trim().replace('D', "E").parse().unwrap_or(0.0)`.  The external
`str::parse::<f64>` is the parameter `p` (`none` models a parse error). -/
def parse_float (p : List Char → Option ℚ) (s : List Char) : ℚ :=
  (p (replaceDE (trimChars s))).getD 0

/-- gnss.rs `RinexNav::parse_epoch`: split columns 4–23 on whitespace and
parse six `i32` fields with `unwrap_or(0)`.  Fewer than six tokens makes
`parts[i]` an out-of-bounds index — a panic, modelled as `none`. -/
def parse_epoch (s : List Char) : Option Epoch :=
  if 6 ≤ (splitWs s).length then
    some (parseI32or0 ((splitWs s).getD 0 []), parseI32or0 ((splitWs s).getD 1 []),
          parseI32or0 ((splitWs s).getD 2 []), parseI32or0 ((splitWs s).getD 3 []),
          parseI32or0 ((splitWs s).getD 4 []), parseI32or0 ((splitWs s).getD 5 []))
  else none

/-- The first four 19-character chunks of a data line after the 4-column
skip (gnss.rs `parse_data_line`, the `line[4..] … chunks(19).take(4)`). -/
def chunksTaken (line : List Char) : List (List Char) :=
  (chunksOf 19 (line.drop 4)).take 4

/-- One chunk's value in `parse_data_line`:
`chunk.iter().collect::<String>().replace('D', "E").trim().parse().unwrap_or(0.0)`. -/
def chunkVal (p : List Char → Option ℚ) (chunk : List Char) : ℚ :=
  (p (trimChars (replaceDE chunk))).getD 0

/-- The list of field values a data line contributes (gnss.rs
`parse_data_line`, the `values` vector). -/
def data_line_values (p : List Char → Option ℚ) (line : List Char) : List ℚ :=
  (chunksTaken line).map (chunkVal p)

/-- The positional field assignment of gnss.rs `parse_data_line`'s `match
line_number` block; `v.getD i 0` models `values.get(i).copied().unwrap_or(0.0)`. -/
def applyValues (r : NavRecord) (v : List ℚ) : ℕ → NavRecord
  | 0 => { r with iode := v.getD 0 0, crs := v.getD 1 0,
                  delta_n := v.getD 2 0, m0 := v.getD 3 0 }
  | 1 => { r with cuc := v.getD 0 0, eccentricity := v.getD 1 0,
                  cus := v.getD 2 0, sqrt_a := v.getD 3 0 }
  | 2 => { r with toe := v.getD 0 0, cic := v.getD 1 0,
                  omega0 := v.getD 2 0, cis := v.getD 3 0 }
  | 3 => { r with i0 := v.getD 0 0, crc := v.getD 1 0,
                  omega := v.getD 2 0, omega_dot := v.getD 3 0 }
  | 4 => { r with idot := v.getD 0 0, codes_on_l2_channel := v.getD 1 0,
                  gps_week := v.getD 2 0, l2_p_data_flag := v.getD 3 0 }
  | 5 => { r with sv_accuracy := v.getD 0 0, sv_health := v.getD 1 0,
                  tgd := v.getD 2 0, iodc := v.getD 3 0 }
  | 6 => { r with transmission_time := v.getD 0 0, fit_interval := v.getD 1 0 }
  | _ => r

/-- gnss.rs `RinexNav::parse_data_line`.  The slice `line[4..]` panics when
the line is shorter than 4 bytes (`none`); otherwise the record is updated
from the line's chunk values. -/
def parse_data_line (p : List Char → Option ℚ) (r : NavRecord)
    (line : List Char) (ln : ℕ) : Option NavRecord :=
  if line.length < 4 then none
  else some (applyValues r (data_line_values p line) ln)

/-- gnss.rs `epoch_to_gps_millis`: build the civil timestamp with chrono
(`with_ymd_and_hms(..).unwrap()` — `none` models the panic on an invalid
date) and convert with `calculate_gps_time`.  The chrono construction and
subtraction are the parameter `c2m`, giving the timestamp's microsecond
offset from the GPS epoch. -/
def epoch_to_gps_millis (c2m : Epoch → Option ℤ) (e : Epoch) : Option ℚ :=
  (c2m e).map calculate_gps_time

/-- The header record built at gnss.rs lines 141–149: parsed header fields
over `NavRecord::default()`. -/
def mkHeaderRec (satId : ℕ) (ep : Epoch) (gps bias drift driftRate : ℚ) :
    NavRecord :=
  { NavRecord.mkDefault with
    sat_id := satId, epoch := ep, gps_millis := gps, sv_clock_bias := bias,
    sv_clock_drift := drift, sv_clock_drift_rate := driftRate }

/-- The `for _ in 0..7` loop of gnss.rs lines 152–158: fold the available
continuation lines into the record with increasing `line_count`. -/
def applyDataLines (p : List Char → Option ℚ) :
    NavRecord → List (List Char) → ℕ → Option NavRecord
  | r, [], _ => some r
  | r, dl :: rest, ln =>
    match parse_data_line p r dl ln with
    | none => none
    | some r' => applyDataLines p r' rest (ln + 1)

/-- The record loop of gnss.rs `RinexNav::from_file` (lines 129–160), on
the list of lines after the header.  A line shorter than 79 characters is
skipped (`continue`); otherwise the header fields are parsed (columns 2–3
satellite id, 4–23 epoch, then three 19-column floats, which need at least
80 characters — a 79-character line panics on the `line[61..80]` slice),
the next up-to-7 lines are folded in as data lines, and parsing resumes
after them.  `none` models a panic anywhere. -/
def parseRecordsGo (c2m : Epoch → Option ℤ) (p : List Char → Option ℚ) :
    ℕ → List (List Char) → Option (List NavRecord)
  | _, [] => some []
  | 0, _ :: _ => none
  | fuel + 1, line :: rest =>
    if line.length < 79 then parseRecordsGo c2m p fuel rest
    else
      match parse_epoch ((line.drop 3).take 20) with
      | none => none
      | some ep =>
        match epoch_to_gps_millis c2m ep with
        | none => none
        | some gps =>
          if 80 ≤ line.length then
            match applyDataLines p
                (mkHeaderRec (parseU8or0 (trimChars ((line.drop 1).take 2))) ep gps
                  (parse_float p ((line.drop 23).take 19))
                  (parse_float p ((line.drop 42).take 19))
                  (parse_float p ((line.drop 61).take 19)))
                (rest.take 7) 0 with
            | none => none
            | some r =>
              match parseRecordsGo c2m p fuel (rest.drop 7) with
              | none => none
              | some rs => some (r :: rs)
          else none

/-- The record loop proper, with fuel equal to the number of lines (each
step consumes at least one line, so the fuel never runs out). -/
def parseRecords (c2m : Epoch → Option ℤ) (p : List Char → Option ℚ)
    (lines : List (List Char)) : Option (List NavRecord) :=
  parseRecordsGo c2m p lines.length lines

/-- List-of-chars test that `sub` occurs at the head of `l`. -/
def startsWithL : List Char → List Char → Bool
  | _, [] => true
  | [], _ :: _ => false
  | a :: as, b :: bs => a == b && startsWithL as bs

/-- Rust `str::contains` for a literal substring. -/
def containsSub (sub : List Char) : List Char → Bool
  | [] => sub.isEmpty
  | c :: t => startsWithL (c :: t) sub || containsSub sub t

/-- The header skip of gnss.rs lines 122–126: drop every line up to and
including the first one containing `END OF HEADER`. -/
def skipHeader : List (List Char) → List (List Char)
  | [] => []
  | l :: rest => if containsSub "END OF HEADER".toList l then rest else skipHeader rest

/-- gnss.rs `RinexNav::from_file`, on the file's line list. -/
def from_lines (c2m : Epoch → Option ℤ) (p : List Char → Option ℚ)
    (lines : List (List Char)) : Option (List NavRecord) :=
  parseRecords c2m p (skipHeader lines)

/-- Index and key of the first minimum of `key` over a list, mirroring
Rust's `Iterator::min_by_key`: when several elements are equally minimum,
the first one is returned. -/
def minByKeyIdx (key : α → ℕ) : List α → Option (ℕ × ℕ)
  | [] => none
  | x :: xs =>
    match minByKeyIdx key xs with
    | none => some (0, key x)
    | some (j, k) => if key x ≤ k then some (0, key x) else some (j + 1, k)

/-- The comparison key of satellite.rs lines 36–39:
`((record.gps_millis - time).abs() * 1000.0) as u64`. -/
def selKey (time : ℚ) (r : NavRecord) : ℕ := satU64 (ratAbs (r.gps_millis - time) * 1000)

/-- satellite.rs lines 32–42: per-epoch ephemeris selection,
`min_by_key` index with `unwrap_or(0)` on an empty record list. -/
def closestIndex (eph : List NavRecord) (time : ℚ) : ℕ :=
  ((minByKeyIdx (selKey time) eph).map Prod.fst).getD 0

/-- Pointwise ternary zip, for the broadcast `m + e * sin(E)` array
expression. -/
def zipWith3 (f : α → β → γ → δ) : List α → List β → List γ → List δ
  | a :: as, b :: bs, c :: cs => f a b c :: zipWith3 f as bs cs
  | _, _, _ => []

/-- Elementwise sum of absolute values: `.mapv(|x| x.abs()).sum()`. -/
def sumAbs (l : List ℚ) : ℚ := (l.map ratAbs).sum

/-- Convergence tolerance `1e-8` of `solve_kepler_robust`. -/
def keplerTol : ℚ := 1 / 100000000

/-- One fixed-point step of satellite.rs `solve_kepler_robust`:
`e_next = m + e * e_array.mapv(f64::sin)`, elementwise. -/
def kepler_next (sine : ℚ → ℚ) (m e ea : List ℚ) : List ℚ :=
  zipWith3 (fun mi ei x => mi + ei * sine x) m e ea

/-- The iteration loop of satellite.rs `solve_kepler_robust` with explicit
remaining-iteration fuel: compute `e_next`, return it when the summed
absolute difference to the previous iterate drops below the tolerance,
else continue; when the fuel runs out return the last iterate. -/
def kepler_iter (sine : ℚ → ℚ) (m e : List ℚ) : ℕ → List ℚ → List ℚ
  | 0, ea => ea
  | k + 1, ea =>
    if sumAbs (List.zipWith (· - ·) (kepler_next sine m e ea) ea) < keplerTol then
      kepler_next sine m e ea
    else kepler_iter sine m e k (kepler_next sine m e ea)

/-- satellite.rs `Satellite::solve_kepler_robust`: start at `E₀ = M` and
run at most 30 fixed-point iterations. -/
def solve_kepler_robust (sine : ℚ → ℚ) (m e : List ℚ) : List ℚ :=
  kepler_iter sine m e 30 m

/-- gnss.rs `ECEF`: an Earth-centred Earth-fixed position. -/
structure ECEF where
  x : ℚ
  y : ℚ
  z : ℚ
deriving DecidableEq

/-- gnss.rs `State`: one propagated sample (the source stores each in a
singleton `Vec`). -/
structure State where
  time : List ℚ
  position : List ECEF
deriving DecidableEq

/-- The transcendental `f64` functions `propagate` consumes, as parameters
of the embedding. -/
structure RF where
  sinq : ℚ → ℚ
  cosq : ℚ → ℚ
  atan2q : ℚ → ℚ → ℚ
  sqrtq : ℚ → ℚ

/-- The panics `Satellite::propagate` can hit: the `u128` division by zero
at line 28 when `step.as_millis() == 0`; the out-of-bounds
`ephemeris_data[…]` at line 45 when the record list is empty; the
out-of-bounds `self.states[0]` of the debug print at line 143 when no
state was produced. -/
inductive Panic where
  | divByZero
  | ephIndex
  | stateIndex
deriving DecidableEq

/-- The requested epoch grid of satellite.rs lines 27–30, in GPS seconds:
`calculate_gps_time((start + step * i as u32).into()) / 1000.0`.  `start`
is the start timestamp's microsecond offset from the GPS epoch, `step` the
step in nanoseconds; `i as u32` truncates the sample index modulo `2^32`. -/
def gpsTimeAt (start : ℤ) (step i : ℕ) : ℚ :=
  calculate_gps_time (start + ((step * (i % 2 ^ 32)) / 1000 : ℕ)) / 1000

/-- The per-epoch scalar computation of satellite.rs lines 91–142, given
the selected record `r`, the epoch's GPS time `t` (seconds), its rolled
elapsed time `tkv` and its solved eccentric anomaly `ev`: true anomaly,
second-harmonic corrections, corrected elements, in-plane position,
Earth-rotation correction and the ECEF state.  The source computes these
with elementwise whole-array operations over equal-length columns and then
stores `states[idx]` by index; per-index scalars are the same values. -/
def stateOf (rf : RF) (r : NavRecord) (t tkv ev : ℚ) : State :=
  let a := r.sqrt_a ^ 2
  let e := r.eccentricity
  let sin_e := rf.sinq ev
  let cos_e := rf.cosq ev
  let nu := rf.atan2q (rf.sqrtq (1 - e * e) * sin_e) (cos_e - e)
  let phi := nu + r.omega
  let sin2phi := rf.sinq (phi * 2)
  let cos2phi := rf.cosq (phi * 2)
  let du := r.cus * sin2phi + r.cuc * cos2phi
  let dr := r.crs * sin2phi + r.crc * cos2phi
  let di := r.cis * sin2phi + r.cic * cos2phi
  let u := phi + du
  let rr := a * (1 - e * cos_e) + dr
  let iCor := r.i0 + di + r.idot * tkv
  let xo := rr * rf.cosq u
  let yo := rr * rf.sinq u
  let om := r.omega0 + (r.omega_dot - OMEGA_E_DOT) * tkv - OMEGA_E_DOT * r.toe
  { time := [t],
    position := [⟨xo * rf.cosq om - yo * rf.cosq iCor * rf.sinq om,
                  xo * rf.sinq om + yo * rf.cosq iCor * rf.cosq om,
                  yo * rf.sinq iCor⟩] }

/-- The sample count of satellite.rs line 28:
`(duration.as_millis() / step.as_millis()) as usize` — millisecond
truncation of both durations, `u128` division, then a wrapping cast to the
64-bit `usize`.  In Lean's total arithmetic a zero `step.as_millis()`
makes this expression 0, but `propagate` checks for that case first and
panics exactly as the Rust division does. -/
def sampleCount (duration step : ℕ) : ℕ :=
  ((duration / 1000000) / (step / 1000000)) % 2 ^ 64

/-- The state history one run of satellite.rs `propagate` produces for a
sample count `n`: the requested-epoch column, per-epoch nearest-record
selection, rolled elapsed times, mean anomalies, the whole-column Kepler
solve (its convergence test sums over all epochs, exactly as in the
source), then the per-index coordinate transform `stateOf`. -/
def propagateStates (rf : RF) (start : ℤ) (step n : ℕ) (eph : List NavRecord) :
    List State :=
  let gps_times : List ℚ := (List.range n).map (gpsTimeAt start step)
  let sel : List NavRecord :=
    gps_times.map (fun t => eph.getD (closestIndex eph t) NavRecord.mkDefault)
  let tk : List ℚ := List.zipWith (fun t r => tkOf t r.toe) gps_times sel
  let m : List ℚ := List.zipWith
    (fun r tkv => r.m0 + (rf.sqrtq (MU_EARTH / (r.sqrt_a ^ 2) ^ 3) + r.delta_n) * tkv)
    sel tk
  let eArr : List ℚ := solve_kepler_robust rf.sinq m (sel.map (fun r => r.eccentricity))
  (List.range n).map (fun idx =>
    stateOf rf (sel.getD idx NavRecord.mkDefault) (gps_times.getD idx 0)
      (tk.getD idx 0) (eArr.getD idx 0))

/-- satellite.rs `Satellite::propagate`.  `start` is the start timestamp's
microsecond offset from the GPS epoch, `duration` and `step` are in
nanoseconds, `_hist` is the satellite's prior state history (discarded by
`self.states.clear()` before the new states are stored).  The result is
the new state history together with the returned count
(`self.states.len()`), or the panic hit: the `u128` division by zero when
`step.as_millis() == 0`; the out-of-bounds `ephemeris_data[…]` inside
`Array2::from_shape_fn((16, n), …)` when the record list is empty and
`n > 0`; the out-of-bounds `self.states[0]` of the debug print at line 143
when no state was produced. -/
def propagate (rf : RF) (start : ℤ) (duration step : ℕ) (eph : List NavRecord)
    (_hist : List State) : Except Panic (List State × ℕ) :=
  if step / 1000000 = 0 then .error .divByZero
  else if eph.isEmpty ∧ sampleCount duration step ≠ 0 then .error .ephIndex
  else if (propagateStates rf start step (sampleCount duration step) eph).isEmpty then
    .error .stateIndex
  else
    .ok (propagateStates rf start step (sampleCount duration step) eph,
         (propagateStates rf start step (sampleCount duration step) eph).length)


/-- Modelled from the spec: chrono's proleptic-Gregorian leap-year rule,
needed because the calendar library backing `Utc.with_ymd_and_hms` is not
part of src/. -/
def isLeapYear (y : ℤ) : Bool := (y % 4 == 0 && y % 100 != 0) || y % 400 == 0

/-- Modelled from the spec: days in a civil month under the chrono
calendar. -/
def daysInMonth (y m : ℤ) : ℤ :=
  if m = 2 then (if isLeapYear y then 29 else 28)
  else if m = 4 ∨ m = 6 ∨ m = 9 ∨ m = 11 then 30
  else 31

/-- Modelled from the spec: days from 1970-01-01 to the civil date
`y-m-d` in the proleptic Gregorian calendar (the standard
days-from-civil algorithm), standing in for chrono's date arithmetic. -/
def daysFromCivil (y m d : ℤ) : ℤ :=
  let y' := if m ≤ 2 then y - 1 else y
  let era := Int.fdiv y' 400
  let yoe := y' - era * 400
  let mp := if 3 ≤ m then m - 3 else m + 9
  let doy := Int.fdiv (153 * mp + 2) 5 + d - 1
  let doe := yoe * 365 + Int.fdiv yoe 4 - Int.fdiv yoe 100 + doy
  era * 146097 + doe - 719468

/-- Modelled from the spec: the Time Utility's civil-timestamp
construction (`Utc.with_ymd_and_hms(..).unwrap()`) and subtraction from
the GPS epoch, as implemented by the external chrono library — validity
checks on the six fields, then the microsecond offset from
1980-01-06T00:00:00 UTC.  An invalid date is the fatal `unwrap` panic. -/
def c2mModel (e : Epoch) : Option ℤ :=
  let (y, mo, d, h, mi, s) := e
  if 1 ≤ mo ∧ mo ≤ 12 ∧ 1 ≤ d ∧ d ≤ daysInMonth y mo ∧
      0 ≤ h ∧ h < 24 ∧ 0 ≤ mi ∧ mi < 60 ∧ 0 ≤ s ∧ s < 60 ∧
      -262144 ≤ y ∧ y ≤ 262143 then
    some (((daysFromCivil y mo d - daysFromCivil 1980 1 6) * 86400 +
           h * 3600 + mi * 60 + s) * 1000000)
  else none

/-- Transcendental-function instance used by concrete witnesses (the
values a claim checks never depend on it). -/
def rfZero : RF := ⟨fun _ => 0, fun _ => 0, fun _ _ => 0, fun _ => 0⟩

/-- A record whose reference GPS time is `g`, all other fields default:
the shape of record the selection examples use. -/
def recAt (g : ℚ) : NavRecord := { NavRecord.mkDefault with gps_millis := g }

/-- Sanity check of the calendar model at the Unix/GPS epoch offset. -/
example : daysFromCivil 1980 1 6 = 3657 := by decide

/-- Sanity check: the GPS epoch itself maps to offset zero. -/
example : c2mModel (1980, 1, 6, 0, 0, 0) = some 0 := by rfl

/-- Helper: truncation toward zero is odd. -/
lemma ratTrunc_neg (q : ℚ) : ratTrunc (-q) = -(ratTrunc q) := by
  unfold ratTrunc
  rw [Rat.neg_num, Rat.neg_den, Int.neg_tdiv]

/-- Helper: truncation toward zero agrees with the floor on nonnegative
rationals. -/
lemma ratTrunc_eq_floor (q : ℚ) (h : 0 ≤ q) : ratTrunc q = ⌊q⌋ := by
  unfold ratTrunc
  rw [Int.tdiv_eq_ediv (Rat.num_nonneg.mpr h) (Int.natCast_nonneg _), Rat.floor_def]

/-- Helper: on a nonnegative dividend and positive divisor, Rust's
remainder is the flooring modulus, and it lies in `[0, b)`. -/
lemma rustRem_nonneg_spec (a b : ℚ) (ha : 0 ≤ a) (hb : 0 < b) :
    rustRem a b = a - b * ⌊a / b⌋ ∧ 0 ≤ rustRem a b ∧ rustRem a b < b := by
  have hq : (0 : ℚ) ≤ a / b := div_nonneg ha hb.le
  have he : rustRem a b = a - b * ⌊a / b⌋ := by
    rw [rustRem, ratTrunc_eq_floor _ hq]
  have hc : b * (a / b) = a := by field_simp
  have h2 : b * ((⌊a / b⌋ : ℚ)) ≤ a := by
    calc b * ((⌊a / b⌋ : ℚ)) ≤ b * (a / b) :=
          mul_le_mul_of_nonneg_left (Int.floor_le _) hb.le
      _ = a := hc
  have h3 : a < b * ((⌊a / b⌋ : ℚ) + 1) := by
    calc a = b * (a / b) := hc.symm
      _ < b * ((⌊a / b⌋ : ℚ) + 1) := by
          exact mul_lt_mul_of_pos_left (Int.lt_floor_add_one _) hb
  refine ⟨he, ?_, ?_⟩ <;> rw [he] <;> nlinarith

/-- C1 (amended): the elapsed time computed by propagate is
`tk = ((t - Toe + 302400) rem 604800) - 302400` with Rust's
truncation-toward-zero remainder.  Whenever `t - Toe ≥ -302400` (in
particular for every realistic input, where `t` is an absolute GPS time
and `Toe ∈ [0, 604800]` a second-of-week) this agrees with the claimed
flooring-modulus formula and lies in `[-302400, 302400)`. -/
theorem c1_tk_rollover (t toe : ℚ) (h : toe - 302400 ≤ t) :
    tkOf t toe =
      (t - toe + 302400) - 604800 * ⌊(t - toe + 302400) / 604800⌋ - 302400 ∧
    -302400 ≤ tkOf t toe ∧ tkOf t toe < 302400 := by
  have ha : (0 : ℚ) ≤ t - toe + 302400 := by linarith
  have hb : (0 : ℚ) < 604800 := by norm_num
  obtain ⟨he, h0, h1⟩ := rustRem_nonneg_spec (t - toe + 302400) 604800 ha hb
  have hu : tkOf t toe = rustRem (t - toe + 302400) 604800 - 302400 := by
    unfold tkOf tkRoll
    ring_nf
  refine ⟨?_, ?_, ?_⟩ <;> rw [hu] <;> linarith [he]

/-- Witness for `c1_tk_rollover` at `t = 907200`, `toe = 0`. -/
theorem c1_tk_rollover_witness :
    ((0 : ℚ) - 302400 ≤ 907200) ∧
    (tkOf 907200 0 =
        ((907200 : ℚ) - 0 + 302400) - 604800 * ⌊((907200 : ℚ) - 0 + 302400) / 604800⌋ - 302400 ∧
      -302400 ≤ tkOf 907200 0 ∧ tkOf 907200 0 < 302400) :=
  ⟨by norm_num, c1_tk_rollover 907200 0 (by norm_num)⟩

/-- C1 counterexample: with `Toe` exactly one week ahead of `t`
(`t = 0`, `Toe = 604800`) the code's `tk` is `-604800` — outside
`[-302400, 302400)` and unequal to the claimed flooring-modulus formula,
which gives `0` there.  Rust's `%` keeps the dividend's sign, so the
rollover does not land in the half-week window for `t - Toe < -302400`. -/
theorem c1_counterexample :
    tkOf 0 604800 = -604800 ∧
    ¬ (-302400 ≤ tkOf 0 604800) ∧
    ((0 : ℚ) - 604800 + 302400) - 604800 * ⌊((0 : ℚ) - 604800 + 302400) / 604800⌋ - 302400 = 0 := by
  have hq : ((0 : ℚ) - 604800 + 302400) / 604800 = -(1 / 2) := by norm_num
  have htr : ratTrunc (-(1 / 2)) = 0 := by
    rw [ratTrunc_neg, ratTrunc_eq_floor _ (by norm_num : (0 : ℚ) ≤ 1 / 2)]
    rw [show ⌊(1 / 2 : ℚ)⌋ = 0 by rw [Int.floor_eq_iff]; norm_num]
    rfl
  have hval : tkOf 0 604800 = -604800 := by
    unfold tkOf tkRoll rustRem
    rw [show (0 : ℚ) - 604800 + 302400 = (0 : ℚ) - 604800 + 302400 from rfl] at hq
    rw [hq, htr]
    norm_num
  have hfm : ⌊((0 : ℚ) - 604800 + 302400) / 604800⌋ = -1 := by
    rw [hq, Int.floor_eq_iff]
    norm_num
  refine ⟨hval, by rw [hval]; norm_num, by rw [hfm]; norm_num⟩

/-- C7: `calculate_gps_time` returns the microsecond offset from the GPS
epoch divided by `1e6`, plus the fixed 18-second leap offset, scaled to
milliseconds — equivalently `t / 1000 + 18000` milliseconds. -/
theorem c7_gps_time (t : ℤ) :
    calculate_gps_time t = ((t : ℚ) / 1000000 + 18) * 1000 ∧
    calculate_gps_time t = (t : ℚ) / 1000 + 18000 := by
  refine ⟨rfl, ?_⟩
  rw [calculate_gps_time]
  ring

/-- Helper: with an all-zero eccentricity column of matching length, one
Kepler step maps the start vector `M` to itself. -/
lemma kepler_next_zero_ecc (sine : ℚ → ℚ) (m e : List ℚ)
    (he : ∀ x ∈ e, x = 0) (hl : e.length = m.length) :
    kepler_next sine m e m = m := by
  unfold kepler_next
  induction m generalizing e with
  | nil =>
    cases e with
    | nil => rfl
    | cons b e' => simp at hl
  | cons a m' ih =>
    cases e with
    | nil => simp at hl
    | cons b e' =>
      have hb : b = 0 := he b (by simp)
      have he' : ∀ x ∈ e', x = 0 := fun x hx => he x (by simp [hx])
      have hl' : e'.length = m'.length := by
        simp only [List.length_cons, Nat.add_right_cancel_iff] at hl
        exact hl
      simp [zipWith3, hb, ih e' he' hl']

/-- Helper: the elementwise difference of a list with itself is all zero. -/
lemma zipWith_sub_self (l : List ℚ) :
    List.zipWith (· - ·) l l = l.map (fun _ => 0) := by
  induction l with
  | nil => rfl
  | cons a t ih => simp [ih]

/-- Helper: the computable absolute value agrees with Mathlib's. -/
lemma ratAbs_eq_abs (q : ℚ) : ratAbs q = |q| := by
  unfold ratAbs
  by_cases h : q < 0
  · rw [if_pos h, abs_of_neg h]
  · rw [if_neg h, abs_of_nonneg (not_lt.mp h)]

/-- Helper: the summed absolute value of an all-zero list is zero. -/
lemma sumAbs_map_zero (l : List ℚ) : sumAbs (l.map fun _ => 0) = 0 := by
  induction l with
  | nil => rfl
  | cons a t ih =>
    simp only [sumAbs, List.map_cons, List.map_map, List.sum_cons] at ih ⊢
    rw [show ratAbs 0 = 0 from rfl]
    simpa using ih

/-- C3: with eccentricity 0 the Kepler solver returns `E = M` exactly —
the first iterate `M + 0·sin(M)` equals `M`, so the summed-absolute-
difference test (`< 1e-8`) passes immediately, for any sine function and
any mean-anomaly column. -/
theorem c3_kepler_circular (sine : ℚ → ℚ) (m e : List ℚ)
    (he : ∀ x ∈ e, x = 0) (hl : e.length = m.length) :
    solve_kepler_robust sine m e = m := by
  have hnext : kepler_next sine m e m = m := kepler_next_zero_ecc sine m e he hl
  have key : ∀ fuel, fuel ≠ 0 → kepler_iter sine m e fuel m = m := by
    intro fuel hf
    cases fuel with
    | zero => exact absurd rfl hf
    | succ k =>
      rw [kepler_iter, hnext, zipWith_sub_self, sumAbs_map_zero, if_pos]
      norm_num [keplerTol]
  rw [solve_kepler_robust]
  exact key 30 (by norm_num)

/-- Witness for `c3_kepler_circular` at `M = [1, 2]`, `e = [0, 0]` and an
arbitrary concrete sine stand-in. -/
theorem c3_kepler_circular_witness :
    (∀ x ∈ [(0 : ℚ), 0], x = 0) ∧ [(0 : ℚ), 0].length = [(1 : ℚ), 2].length ∧
    solve_kepler_robust (fun q => q + 5) [1, 2] [0, 0] = [1, 2] :=
  ⟨by decide, by decide,
   c3_kepler_circular (fun q => q + 5) [1, 2] [0, 0] (by decide) (by decide)⟩

/-- Helper: `minByKeyIdx` on a nonempty list always yields a result
(mirroring that `min_by_key` is `Some` on a nonempty iterator). -/
lemma minByKeyIdx_isSome (key : α → ℕ) (x : α) (xs : List α) :
    (minByKeyIdx key (x :: xs)).isSome = true := by
  simp only [minByKeyIdx]
  cases hxs : minByKeyIdx key xs with
  | none => rfl
  | some jk =>
    cases jk with
    | mk j k =>
      by_cases hx : key x ≤ k
      · simp [hx]
      · simp [hx]

/-- Helper: the index `minByKeyIdx` returns is in bounds, carries its key,
has a minimal key, and is the first index attaining that key. -/
lemma minByKeyIdx_spec (key : α → ℕ) (d : α) :
    ∀ (l : List α) (j k : ℕ), minByKeyIdx key l = some (j, k) →
      j < l.length ∧ k = key (l.getD j d) ∧
      (∀ i, i < l.length → k ≤ key (l.getD i d)) ∧
      ∀ i, i < j → k < key (l.getD i d) := by
  intro l
  induction l with
  | nil => intro j k h; simp [minByKeyIdx] at h
  | cons x xs ih =>
    intro j k h
    simp only [minByKeyIdx] at h
    cases hxs : minByKeyIdx key xs with
    | none =>
      rw [hxs] at h
      simp only [Option.some.injEq, Prod.mk.injEq] at h
      obtain ⟨hj, hk⟩ := h
      subst hj
      subst hk
      have hnil : xs = [] := by
        cases xs with
        | nil => rfl
        | cons y ys =>
          have hs := minByKeyIdx_isSome key y ys
          rw [hxs] at hs
          simp at hs
      subst hnil
      refine ⟨by simp, by simp, ?_, by omega⟩
      intro i hi
      have hi0 : i = 0 := by simpa using hi
      subst hi0
      simp
    | some jk =>
      cases jk with
      | mk j' k' =>
        rw [hxs] at h
        obtain ⟨hj', hkk', hmin, hfirst⟩ := ih j' k' hxs
        by_cases hx : key x ≤ k'
        · simp only [hx, if_true, Option.some.injEq, Prod.mk.injEq] at h
          obtain ⟨hj, hk⟩ := h
          subst hj
          subst hk
          refine ⟨by simp, by simp, ?_, by omega⟩
          intro i hi
          cases i with
          | zero => simp
          | succ i' =>
            simp only [List.getD_cons_succ]
            exact le_trans hx (hkk' ▸ hmin i' (by simpa using hi))
        · simp only [hx, if_false, Option.some.injEq, Prod.mk.injEq] at h
          push_neg at hx
          obtain ⟨hj, hk⟩ := h
          subst hj
          subst hk
          refine ⟨?_, ?_, ?_, ?_⟩
          · simpa using hj'
          · simpa using hkk'
          · intro i hi
            cases i with
            | zero => simpa using le_of_lt hx
            | succ i' =>
              simp only [List.getD_cons_succ]
              exact hmin i' (by simpa using hi)
          · intro i hi
            cases i with
            | zero => simpa using hx
            | succ i' =>
              simp only [List.getD_cons_succ]
              exact hfirst i' (by omega)

/-- Helper: absolute value of a concretely negative difference. -/
lemma abs_eval_neg (a b : ℚ) (h : a < b) : |a - b| = b - a := by
  rw [abs_of_neg (by linarith)]
  ring

/-- Helper: absolute value of a concretely nonnegative difference. -/
lemma abs_eval_nonneg (a b : ℚ) (h : b ≤ a) : |a - b| = a - b :=
  abs_of_nonneg (by linarith)

/-- Helper: the selection key on a `recAt` record, in floor form. -/
lemma selKey_recAt (t g : ℚ) :
    selKey t (recAt g) = min (2 ^ 64 - 1) (⌊|g - t| * 1000⌋).toNat := by
  unfold selKey satU64
  have hnn : (0 : ℚ) ≤ ratAbs ((recAt g).gps_millis - t) * 1000 := by
    rw [ratAbs_eq_abs]
    positivity
  rw [if_neg (not_lt.mpr hnn), ratTrunc_eq_floor _ hnn, ratAbs_eq_abs]
  rfl

/-- Helper: evaluating the selection key at a known whole value. -/
lemma selKey_eval (t g : ℚ) (n : ℕ) (hn : |g - t| * 1000 = (n : ℚ))
    (hcap : n ≤ 2 ^ 64 - 1) : selKey t (recAt g) = n := by
  rw [selKey_recAt, hn, Int.floor_natCast, Int.toNat_natCast]
  exact min_eq_right hcap

/-- Helper: the spec's first selection example — query at 900 against
reference times 0, 1000, 2000 picks the record at 1000. -/
lemma closestIndex_ex900 : closestIndex [recAt 0, recAt 1000, recAt 2000] 900 = 1 := by
  have k0 : selKey 900 (recAt 0) = 900000 := by
    refine selKey_eval _ _ _ ?_ (by norm_num)
    rw [abs_eval_neg _ _ (by norm_num)]
    norm_num
  have k1 : selKey 900 (recAt 1000) = 100000 := by
    refine selKey_eval _ _ _ ?_ (by norm_num)
    rw [abs_eval_nonneg _ _ (by norm_num)]
    norm_num
  have k2 : selKey 900 (recAt 2000) = 1100000 := by
    refine selKey_eval _ _ _ ?_ (by norm_num)
    rw [abs_eval_nonneg _ _ (by norm_num)]
    norm_num
  simp [closestIndex, minByKeyIdx, k0, k1, k2]

/-- Helper: the spec's tie example — query at 500 is equidistant from 0
and 1000 and picks the first-encountered record at 0. -/
lemma closestIndex_ex500 : closestIndex [recAt 0, recAt 1000, recAt 2000] 500 = 0 := by
  have k0 : selKey 500 (recAt 0) = 500000 := by
    refine selKey_eval _ _ _ ?_ (by norm_num)
    rw [abs_eval_neg _ _ (by norm_num)]
    norm_num
  have k1 : selKey 500 (recAt 1000) = 500000 := by
    refine selKey_eval _ _ _ ?_ (by norm_num)
    rw [abs_eval_nonneg _ _ (by norm_num)]
    norm_num
  have k2 : selKey 500 (recAt 2000) = 1500000 := by
    refine selKey_eval _ _ _ ?_ (by norm_num)
    rw [abs_eval_nonneg _ _ (by norm_num)]
    norm_num
  simp [closestIndex, minByKeyIdx, k0, k1, k2]

/-- C2 (amended): for every nonempty record list and epoch, the selected
index is in bounds and minimizes the truncated-to-whole-milliseconds
(`u64`-saturated) distance `selKey`, with ties broken in favor of the
first index; the two examples of the spec, with whole-second reference
times, behave exactly as claimed. -/
theorem c2_selection (x : NavRecord) (xs : List NavRecord) (t : ℚ) :
    closestIndex (x :: xs) t < (x :: xs).length ∧
    (∀ i, i < (x :: xs).length →
      selKey t ((x :: xs).getD (closestIndex (x :: xs) t) NavRecord.mkDefault) ≤
        selKey t ((x :: xs).getD i NavRecord.mkDefault)) ∧
    (∀ i, i < closestIndex (x :: xs) t →
      selKey t ((x :: xs).getD (closestIndex (x :: xs) t) NavRecord.mkDefault) <
        selKey t ((x :: xs).getD i NavRecord.mkDefault)) ∧
    closestIndex [recAt 0, recAt 1000, recAt 2000] 900 = 1 ∧
    closestIndex [recAt 0, recAt 1000, recAt 2000] 500 = 0 := by
  have hs := minByKeyIdx_isSome (selKey t) x xs
  obtain ⟨⟨j, k⟩, heq⟩ := Option.isSome_iff_exists.mp hs
  have hci : closestIndex (x :: xs) t = j := by
    simp [closestIndex, heq]
  obtain ⟨h1, h2, h3, h4⟩ := minByKeyIdx_spec (selKey t) NavRecord.mkDefault (x :: xs) j k heq
  rw [hci]
  refine ⟨h1, ?_, ?_, closestIndex_ex900, closestIndex_ex500⟩
  · intro i hi
    rw [← h2]
    exact h3 i hi
  · intro i hi
    rw [← h2]
    exact h4 i hi

/-- C2 counterexample: with reference times 0.0009 and 0.0001 and a query
at 0, both records' distances truncate to 0 whole milliseconds, so the
code keeps the first record (index 0) even though the second is strictly
closer: the code does not minimize the exact absolute difference, only
its whole-millisecond truncation. -/
theorem c2_counterexample :
    closestIndex [recAt (9 / 10000), recAt (1 / 10000)] 0 = 0 ∧
    |(recAt (1 / 10000)).gps_millis - 0| < |(recAt (9 / 10000)).gps_millis - 0| := by
  have kA : selKey 0 (recAt (9 / 10000)) = 0 := by
    rw [selKey_recAt, abs_eval_nonneg _ _ (by norm_num)]
    rw [show ((9 : ℚ) / 10000 - 0) * 1000 = 9 / 10 by norm_num]
    rw [show ⌊(9 / 10 : ℚ)⌋ = 0 by rw [Int.floor_eq_iff]; norm_num]
    exact min_eq_right (Nat.zero_le _)
  have kB : selKey 0 (recAt (1 / 10000)) = 0 := by
    rw [selKey_recAt, abs_eval_nonneg _ _ (by norm_num)]
    rw [show ((1 : ℚ) / 10000 - 0) * 1000 = 1 / 10 by norm_num]
    rw [show ⌊(1 / 10 : ℚ)⌋ = 0 by rw [Int.floor_eq_iff]; norm_num]
    exact min_eq_right (Nat.zero_le _)
  constructor
  · simp [closestIndex, minByKeyIdx, kA, kB]
  · show |(1 / 10000 : ℚ) - 0| < |(9 / 10000 : ℚ) - 0|
    rw [abs_eval_nonneg _ _ (by norm_num), abs_eval_nonneg _ _ (by norm_num)]
    norm_num

/-- Helper: one propagation run produces exactly `n` states. -/
lemma propagateStates_length (rf : RF) (start : ℤ) (step n : ℕ)
    (eph : List NavRecord) : (propagateStates rf start step n eph).length = n := by
  simp [propagateStates]

/-- Helper: the state history is empty exactly when the sample count is
zero. -/
lemma propagateStates_isEmpty (rf : RF) (start : ℤ) (step n : ℕ)
    (eph : List NavRecord) :
    (propagateStates rf start step n eph).isEmpty = true ↔ n = 0 := by
  rw [List.isEmpty_iff, ← List.length_eq_zero, propagateStates_length]

/-- Helper: the `idx`-th produced state carries the `idx`-th requested
epoch. -/
lemma propagateStates_time (rf : RF) (start : ℤ) (step n : ℕ)
    (eph : List NavRecord) (idx : ℕ) (h : idx < n) :
    ((propagateStates rf start step n eph).getD idx ⟨[], []⟩).time =
      [gpsTimeAt start step idx] := by
  simp only [propagateStates]
  rw [List.getD_eq_getElem?_getD, List.getElem?_map, List.getElem?_range h]
  simp [stateOf, List.getD_eq_getElem?_getD, List.getElem?_map,
        List.getElem?_range h]

/-- C9: a strictly positive step shorter than one millisecond drives
`step.as_millis()` to zero and `propagate` panics with the integer
division by zero while computing the sample count; with a step of at
least one millisecond that division cannot panic.  The effective
precondition really is `step ≥ 1 ms`, not `step > 0`. -/
theorem c9_submillisecond_step (rf : RF) (start : ℤ) (duration step : ℕ)
    (eph : List NavRecord) (hist : List State) :
    (0 < step → step < 1000000 →
      propagate rf start duration step eph hist = .error .divByZero) ∧
    (1000000 ≤ step →
      propagate rf start duration step eph hist ≠ .error .divByZero) := by
  constructor
  · intro _ h2
    unfold propagate
    rw [if_pos (Nat.div_eq_of_lt h2)]
  · intro h
    have hs : step / 1000000 ≠ 0 := by
      have h1 := (Nat.one_le_div_iff (by norm_num : 0 < 1000000)).mpr h
      omega
    unfold propagate
    rw [if_neg hs]
    split
    · simp
    · split
      · simp
      · intro hc
        exact Except.noConfusion hc

/-- Witness for `c9_submillisecond_step` at a 0.5 ms step. -/
theorem c9_submillisecond_step_witness :
    (0 < 500000 ∧ 500000 < 1000000) ∧
    propagate rfZero 0 1000000 500000 [] [] = .error .divByZero :=
  ⟨⟨by norm_num, by norm_num⟩,
   (c9_submillisecond_step rfZero 0 1000000 500000 [] []).1 (by norm_num) (by norm_num)⟩

/-- C5 (amended): `propagate` succeeds exactly when `step` is at least
one millisecond, the sample count is nonzero, and the ephemeris list is
nonempty.  An empty record list is fatal as the claim says, but it is not
the only fatal case: a sub-millisecond step panics in the sample-count
division, and a zero sample count (e.g. `duration < step`) panics in the
debug print `self.states[0]` even with nonempty records. -/
theorem c5_no_error_iff (rf : RF) (start : ℤ) (duration step : ℕ)
    (eph : List NavRecord) (hist : List State) :
    (∃ v, propagate rf start duration step eph hist = .ok v) ↔
      step / 1000000 ≠ 0 ∧ sampleCount duration step ≠ 0 ∧ eph ≠ [] := by
  unfold propagate
  by_cases hs : step / 1000000 = 0
  · rw [if_pos hs]
    constructor
    · rintro ⟨v, hv⟩
      exact Except.noConfusion hv
    · rintro ⟨hs', _, _⟩
      exact absurd hs hs'
  · rw [if_neg hs]
    by_cases hn : sampleCount duration step = 0
    · rw [if_neg (by simp [hn]), if_pos ((propagateStates_isEmpty _ _ _ _ _).mpr hn)]
      constructor
      · rintro ⟨v, hv⟩
        exact Except.noConfusion hv
      · rintro ⟨_, hn', _⟩
        exact absurd hn hn'
    · by_cases he : eph = []
      · rw [if_pos ⟨by simp [he], hn⟩]
        constructor
        · rintro ⟨v, hv⟩
          exact Except.noConfusion hv
        · rintro ⟨_, _, he'⟩
          exact absurd he he'
      · rw [if_neg (fun hc => he (List.isEmpty_iff.mp hc.1)),
            if_neg (fun hc => hn ((propagateStates_isEmpty _ _ _ _ _).mp hc))]
        constructor
        · intro _
          exact ⟨hs, hn, he⟩
        · intro _
          exact ⟨_, rfl⟩

/-- C5 counterexample: a strictly positive step (1 ms) and a nonempty
record list still panic when the sample count is zero (duration 0), at
the debug print's `self.states[0]` — refuting "fails fatally if and only
if the record set is empty". -/
theorem c5_counterexample :
    0 < 1000000 ∧ ([NavRecord.mkDefault] : List NavRecord) ≠ [] ∧
    propagate rfZero 0 0 1000000 [NavRecord.mkDefault] [] = .error .stateIndex := by
  refine ⟨by norm_num, by simp, by rfl⟩

/-- C4 (amended): under the effective preconditions — `step ≥ 1 ms`,
nonzero sample count, nonempty records — `propagate` stores exactly
`sampleCount duration step` states (the millisecond-truncated quotient
`duration.as_millis() / step.as_millis()`, not `⌊duration / step⌋`), one
per requested epoch in epoch order, returns that count, and the result
replaces any prior state history rather than appending to it. -/
theorem c4_state_count (rf : RF) (start : ℤ) (duration step : ℕ)
    (eph : List NavRecord) (hist hist' : List State)
    (hs : step / 1000000 ≠ 0) (hn : sampleCount duration step ≠ 0)
    (he : eph ≠ []) :
    ∃ sts : List State,
      propagate rf start duration step eph hist = .ok (sts, sampleCount duration step) ∧
      sts.length = sampleCount duration step ∧
      (∀ idx, idx < sampleCount duration step →
        (sts.getD idx ⟨[], []⟩).time = [gpsTimeAt start step idx]) ∧
      propagate rf start duration step eph hist =
        propagate rf start duration step eph hist' := by
  refine ⟨propagateStates rf start step (sampleCount duration step) eph, ?_,
    propagateStates_length _ _ _ _ _,
    fun idx h => propagateStates_time _ _ _ _ _ idx h, rfl⟩
  unfold propagate
  rw [if_neg hs, if_neg (fun hc => he (List.isEmpty_iff.mp hc.1)),
      if_neg (fun hc => hn ((propagateStates_isEmpty _ _ _ _ _).mp hc)),
      propagateStates_length]

/-- Witness for `c4_state_count` at duration = step = 2 ms with one
record. -/
theorem c4_state_count_witness :
    (2000000 / 1000000 ≠ 0 ∧ sampleCount 2000000 2000000 ≠ 0 ∧
      ([NavRecord.mkDefault] : List NavRecord) ≠ []) ∧
    (∃ sts : List State,
      propagate rfZero 0 2000000 2000000 [NavRecord.mkDefault] [] =
        .ok (sts, sampleCount 2000000 2000000) ∧
      sts.length = sampleCount 2000000 2000000 ∧
      (∀ idx, idx < sampleCount 2000000 2000000 →
        (sts.getD idx ⟨[], []⟩).time = [gpsTimeAt 0 2000000 idx]) ∧
      propagate rfZero 0 2000000 2000000 [NavRecord.mkDefault] [] =
        propagate rfZero 0 2000000 2000000 [NavRecord.mkDefault] [⟨[0], [⟨0, 0, 0⟩]⟩]) :=
  ⟨⟨by norm_num, by decide, by simp⟩,
   c4_state_count rfZero 0 2000000 2000000 [NavRecord.mkDefault] []
     [⟨[0], [⟨0, 0, 0⟩]⟩] (by norm_num) (by decide) (by simp)⟩

/-- C4 counterexample: duration 5 ms, step 1.5 ms.  The true
`⌊duration / step⌋` is 3, but the code computes
`5 ms / 1 ms = 5` after truncating the step to whole milliseconds, and
stores (and returns) 5 states. -/
theorem c4_counterexample :
    (propagate rfZero 0 5000000 1500000 [NavRecord.mkDefault] []).toOption.map Prod.snd =
      some 5 ∧
    (5000000 : ℕ) / 1500000 = 3 ∧ (5 : ℕ) ≠ 3 := by
  refine ⟨by rfl, by norm_num, by norm_num⟩

/-- Helper: a data line's value list, read off one field at a time. -/
lemma data_line_values_getD (p : List Char → Option ℚ) (line : List Char)
    (j : ℕ) (hj : j < (chunksTaken line).length) (d : ℚ) :
    (data_line_values p line).getD j d =
      chunkVal p ((chunksTaken line).getD j []) := by
  unfold data_line_values
  rw [List.getD_eq_getElem?_getD, List.getElem?_map,
      List.getElem?_eq_getElem hj, List.getD_eq_getElem?_getD,
      List.getElem?_eq_getElem hj]
  rfl

/-- C6: numeric field extraction is `trim`, `D → E`, parse, and any field
whose (trimmed, substituted) text the float parser rejects yields `0.0`
instead of an error; consequently a data line with an unparsable field
still produces a record (`parse_data_line` succeeds) with `0.0` in that
field's slot. -/
theorem c6_lenient_parse (p : List Char → Option ℚ) (s line : List Char)
    (r : NavRecord) (j : ℕ)
    (hp : p (replaceDE (trimChars s)) = none)
    (h4 : 4 ≤ line.length)
    (hj : j < (chunksTaken line).length)
    (hpj : p (trimChars (replaceDE ((chunksTaken line).getD j []))) = none) :
    parse_float p s = 0 ∧
    (parse_data_line p r line 1).isSome = true ∧
    (data_line_values p line).getD j 37 = 0 := by
  refine ⟨?_, ?_, ?_⟩
  · rw [parse_float, hp]
    rfl
  · rw [parse_data_line, if_neg (by omega)]
    rfl
  · rw [data_line_values_getD p line j hj 37, chunkVal, hpj]
    rfl

/-- Witness for `c6_lenient_parse`: an always-failing parser, the empty
field string, and a 5-character data line whose single chunk fails to
parse. -/
theorem c6_lenient_parse_witness :
    ((fun _ : List Char => (none : Option ℚ)) (replaceDE (trimChars [])) = none ∧
      4 ≤ "AAAAA".toList.length ∧ 0 < (chunksTaken "AAAAA".toList).length ∧
      (fun _ : List Char => (none : Option ℚ))
          (trimChars (replaceDE ((chunksTaken "AAAAA".toList).getD 0 []))) = none) ∧
    (parse_float (fun _ => none) [] = 0 ∧
      (parse_data_line (fun _ => none) NavRecord.mkDefault "AAAAA".toList 1).isSome = true ∧
      (data_line_values (fun _ => none) "AAAAA".toList).getD 0 37 = 0) :=
  ⟨⟨rfl, by decide, by decide, rfl⟩,
   c6_lenient_parse (fun _ => none) [] "AAAAA".toList NavRecord.mkDefault 0
     rfl (by decide) (by decide) rfl⟩

/-- C8 (amended): a record-header-position line shorter than 79
characters is silently skipped, and no record derived from that line
appears in the output — but only that single line is dropped, not the
8-line record block: parsing resumes at the very next line, which is
treated as a fresh record-header candidate. -/
theorem c8_short_header_skip (c2m : Epoch → Option ℤ) (p : List Char → Option ℚ)
    (line : List Char) (rest : List (List Char)) (h : line.length < 79) :
    parseRecords c2m p (line :: rest) = parseRecords c2m p rest := by
  unfold parseRecords
  simp only [List.length_cons, parseRecordsGo]
  rw [if_pos h]

/-- Witness for `c8_short_header_skip` on a 2-character line. -/
theorem c8_short_header_skip_witness :
    ("ab".toList.length < 79) ∧
    parseRecords c2mModel (fun _ => none) ["ab".toList] =
      parseRecords c2mModel (fun _ => none) [] :=
  ⟨by decide, c8_short_header_skip c2mModel (fun _ => none) "ab".toList [] (by decide)⟩

/-- C8 counterexample: after a short (2-character) line at a record-header
position, the whole 8-line record block is NOT dropped — the very next
line (≥ 79 characters, here a crafted line with satellite id 99) is parsed
as a new record header and a record derived from it appears in the
output.  The short line alone contributes nothing (second conjunct). -/
theorem c8_counterexample :
    ("XX".toList.length < 79) ∧
    (from_lines c2mModel (fun _ => none)
        ["RINEX STUFF         END OF HEADER".toList, "XX".toList,
         ("G99 2023 6 12 0 0 0".toList ++ List.replicate 61 ' ')]).map
      (List.map NavRecord.sat_id) = some [99] ∧
    from_lines c2mModel (fun _ => none)
        ["RINEX STUFF         END OF HEADER".toList, "XX".toList] = some [] := by
  refine ⟨by decide, by rfl, by rfl⟩

/-- C10: a record-header line of at least 79 characters whose epoch
columns hold fewer than six whitespace-separated tokens makes
`parse_epoch` index out of bounds — a panic, not a zero-default — and the
whole parse aborts. -/
theorem c10_epoch_token_panic :
    (∀ s : List Char, (splitWs s).length < 6 → parse_epoch s = none) ∧
    ∀ (c2m : Epoch → Option ℤ) (p : List Char → Option ℚ) (line : List Char)
      (rest : List (List Char)), 79 ≤ line.length →
      (splitWs ((line.drop 3).take 20)).length < 6 →
      parseRecords c2m p (line :: rest) = none := by
  have h1 : ∀ s : List Char, (splitWs s).length < 6 → parse_epoch s = none := by
    intro s hs
    unfold parse_epoch
    rw [if_neg (by omega)]
  refine ⟨h1, ?_⟩
  intro c2m p line rest hlen htok
  unfold parseRecords
  simp only [List.length_cons, parseRecordsGo]
  rw [if_neg (by omega), h1 _ htok]

/-- Witness for `c10_epoch_token_panic` on a 79-character line with blank
epoch columns. -/
theorem c10_epoch_token_panic_witness :
    ((splitWs (List.replicate 20 ' ')).length < 6) ∧
    (79 ≤ ('G' :: '9' :: '9' :: List.replicate 76 ' ').length ∧
      (splitWs ((('G' :: '9' :: '9' :: List.replicate 76 ' ').drop 3).take 20)).length < 6 ∧
      parseRecordsGo c2mModel (fun _ => none) 1
        [('G' :: '9' :: '9' :: List.replicate 76 ' ')] = none) ∧
    parse_epoch (List.replicate 20 ' ') = none ∧
    parseRecords c2mModel (fun _ => none)
      [('G' :: '9' :: '9' :: List.replicate 76 ' ')] = none :=
  ⟨by decide, ⟨by decide, by decide, by decide⟩,
   (c10_epoch_token_panic).1 (List.replicate 20 ' ') (by decide),
   (c10_epoch_token_panic).2 c2mModel (fun _ => none)
     ('G' :: '9' :: '9' :: List.replicate 76 ' ') [] (by decide) (by decide)⟩
